import Mathlib

/-!
# nmc: the cache protocol of `bin/nmc.js`

A shallow embedding of the `run` function of `bin/nmc.js` (lines 62-131), of the
`unhandledRejection` handler (lines 20-23) and of the way the process ends.

The function is a straight sequence of calls to external collaborators.  It is
embedded as a program in a small monad that threads

* the trace of calls made so far (every call of the source appends one event), and
* the regular files of the cache directory, by full path, with their sizes,

and that ends in one of three ways: the code ran to its end, `process.exit` was
called, or an error was thrown (inside an `async` function: the promise is
rejected).  The collaborators whose code is not part of `bin/nmc.js` are taken
from a `World`, which fixes what each of them answers.

Modelling conventions:
* JavaScript strings are Lean strings; exit codes and file sizes are naturals.
* `path.join(a, b)` is `a ++ "/" ++ b` (no normalisation of the result).
* `unpack` and `pack` are called without `await`; they are synchronous calls that
  either return or throw.
* The cache directory lies outside `<cwd>/node_modules`; only `openSync` and
  `pack` write to it.
* The dispatch of lines 35-56 (help, `--nmc-clean`, `--nmc-cache-size`) ends the
  process before `run` is called; the development starts at the call of `run`
  (line 133).
-/

namespace Nmc

/-! ## Data -/

/-- Options object handed to `spawn` (`spawnAndGetOutputsStr`). A field the
source leaves out (`cwd` at line 94) is `none`. -/
structure SpawnOpts where
  command : String
  args : List String
  cwd : Option String
  exceptionIfErrorCode : Bool
deriving DecidableEq, Repr

/-- Result object of `spawn`: the fields `code` and `out` the source reads. -/
structure SpawnRes where
  code : Nat
  out : String
deriving DecidableEq, Repr

/-- Result object of `calcHash`: the fields `hash` and `nameAndVersion`. -/
structure HashInfo where
  hash : String
  nameAndVersion : String
deriving DecidableEq, Repr

/-- One call made by the program, with its arguments. -/
inductive Event where
  | loggerInfo (msg : String)
  | consoleLog (msg : String)
  | timeEnd (label : String)
  | rimrafSync (path : String)
  | calcHash
  | existsSync (path : String)
  | statSync (path : String)
  | unpack (cwd : String) (archive : String)
  | spawn (opts : SpawnOpts)
  | openSync (path : String) (flags : String)
  | closeSync (path : String)
  | pack (cwd : String) (archive : String) (subpaths : List String)
  | processExit (code : Nat)
deriving DecidableEq, Repr

/-- Regular files by full path, with their size in bytes. -/
abbrev Files := List (String × Nat)

/-- What the surroundings of one run answer: the values exported by
`lib/common`, the environment variable `NPM_ORIG`, the files of the cache
directory at the start, and the behaviour of `calcHash`, of the child process,
of `unpack` and of `pack`. -/
structure World where
  cacheDir : String
  npmArgs : List String
  cwd : String
  NPM_ORIG : Option String
  files : Files
  calcHash : Except String HashInfo
  child : String → List String → Option String → SpawnRes
  unpack : String → String → Except String Unit
  pack : String → String → List String → Except String Nat

/-- The state threaded through a run. -/
structure St where
  trace : List Event
  files : Files
deriving DecidableEq, Repr

/-- How a piece of the program ends. -/
inductive Step (α : Type) where
  | ok (a : α) (s : St)
  | exited (code : Nat) (s : St)
  | threw (msg : String) (s : St)

/-- Programs over the state, with `process.exit` and exceptions. -/
def Run (α : Type) : Type := St → Step α

/-- Sequencing: `process.exit` and a thrown error skip the rest. -/
def Run.bind {α β : Type} (m : Run α) (f : α → Run β) : Run β := fun s =>
  match m s with
  | .ok a s1 => f a s1
  | .exited c s1 => .exited c s1
  | .threw e s1 => .threw e s1

instance : Monad Run where
  pure a := fun s => .ok a s
  bind := Run.bind

/-! ## Primitives -/

/-- Record a call in the trace. -/
def emit (e : Event) : Run Unit := fun s =>
  .ok () { s with trace := s.trace ++ [e] }

/-- Node's `path.join` on two segments. -/
def pathJoin (a b : String) : String := a ++ "/" ++ b

/-- Does `p` start with `n`? -/
def startsWith : List Char → List Char → Bool
  | [], _ => true
  | _ :: _, [] => false
  | a :: n, b :: p => a == b && startsWith n p

/-- Does `n` occur in `p` as a contiguous run? -/
def includesChars (n : List Char) : List Char → Bool
  | [] => startsWith n []
  | c :: p => startsWith n (c :: p) || includesChars n p

/-- `String.prototype.includes`. -/
def includes (s n : String) : Bool := includesChars n.data s.data

/-- Write a file: it is created, or replaced when it exists. -/
def writeFile (fs : Files) (path : String) (size : Nat) : Files :=
  (path, size) :: fs.filter (fun f => f.1 != path)

/-- `logger.info(msg)`. -/
def loggerInfo (msg : String) : Run Unit := emit (.loggerInfo msg)

/-- `console.log(msg)`. -/
def consoleLog (msg : String) : Run Unit := emit (.consoleLog msg)

/-- `console.timeEnd(label)`. -/
def consoleTimeEnd (label : String) : Run Unit := emit (.timeEnd label)

/-- `process.exit(code)`: the process ends here. -/
def processExit {α : Type} (code : Nat) : Run α := fun s =>
  .exited code { s with trace := s.trace ++ [.processExit code] }

/-- `rimraf.sync(path)`. -/
def rimrafSync (path : String) : Run Unit := emit (.rimrafSync path)

/-- `fs.existsSync(path)`. -/
def existsSync (path : String) : Run Bool := fun s =>
  .ok (s.files.lookup path).isSome { s with trace := s.trace ++ [.existsSync path] }

/-- `fs.statSync(path).size`; throws when there is no such file. -/
def statSyncSize (path : String) : Run Nat := fun s =>
  let s1 : St := { s with trace := s.trace ++ [.statSync path] }
  match s.files.lookup path with
  | some size => .ok size s1
  | none => .threw "ENOENT" s1

/-- `closeSync(openSync(path, 'w'))`: the file is created empty, or truncated. -/
def touch (path : String) : Run Unit := fun s =>
  .ok () { trace := s.trace ++ [.openSync path "w", .closeSync path],
           files := writeFile s.files path 0 }

/-- `await calcHash()`. -/
def calcHash (w : World) : Run HashInfo := fun s =>
  let s1 : St := { s with trace := s.trace ++ [.calcHash] }
  match w.calcHash with
  | .ok r => .ok r s1
  | .error e => .threw e s1

/-- Modelled from the spec: `spawnAndGetOutputsStr` of lib/spawn-utils, which is
not among the sources. It "accepts a command name, an argument list, a working
directory, and an exception on nonzero exit flag; returns exit code and combined
stdout+stderr text"; with the flag set, a nonzero exit is raised as an error
(surfaced with the installer's own output). -/
def spawn (w : World) (opts : SpawnOpts) : Run SpawnRes := fun s =>
  let s1 : St := { s with trace := s.trace ++ [.spawn opts] }
  let res := w.child opts.command opts.args opts.cwd
  if opts.exceptionIfErrorCode && res.code != 0 then .threw res.out s1 else .ok res s1

/-- Modelled from the spec: `unpack` of lib/tar-utils, which is not among the
sources: it extracts the archive into the directory, or fails with an error. -/
def unpack (w : World) (cwd archive : String) : Run Unit := fun s =>
  let s1 : St := { s with trace := s.trace ++ [.unpack cwd archive] }
  match w.unpack cwd archive with
  | .ok _ => .ok () s1
  | .error e => .threw e s1

/-- Modelled from the spec: `pack` of lib/tar-utils, which is not among the
sources: it creates the archive file at the given path (atomically: the file is
there whole, or the directory is as before), or fails with an error. -/
def pack (w : World) (cwd archive : String) (subpaths : List String) : Run Unit := fun s =>
  let t := s.trace ++ [.pack cwd archive subpaths]
  match w.pack cwd archive subpaths with
  | .ok size => .ok () { trace := t, files := writeFile s.files archive size }
  | .error e => .threw e { s with trace := t }

/-! ## The program -/

/-- Line 18: `process.env.NPM_ORIG || 'npm'`. -/
def npm (w : World) : String :=
  match w.NPM_ORIG with
  | some v => if v = "" then "npm" else v
  | none => "npm"

/-- Line 58. -/
def timeLabel : String := "nmc time"

/-- Lines 62-131: `async function run()`. -/
def run (w : World) : Run Unit := do
  let isGlobal := w.npmArgs.contains "-g"
  if isGlobal then
    loggerInfo "Global installation, nmc is ignored.\n"
    let res ← spawn w
      { command := npm w, args := w.npmArgs, cwd := some w.cwd, exceptionIfErrorCode := true }
    processExit res.code

  loggerInfo "Remove node_modules..."
  rimrafSync (pathJoin w.cwd "node_modules")
  loggerInfo "Done.\n"

  let r ← calcHash w
  let txzPath := pathJoin w.cacheDir (r.hash ++ ".txz")
  let postinstallFlagPath := pathJoin w.cacheDir (r.hash ++ ".postinstall")

  let «exists» ← existsSync txzPath
  if «exists» then
    let fSize ← statSyncSize txzPath
    if fSize > 10 then
      loggerInfo "Hash found in cache, unzipping...\n"
      unpack w w.cwd txzPath
      loggerInfo "Unzipping is done, let`s check for postinstall.\n"

      if (← existsSync postinstallFlagPath) then
        loggerInfo "Postinstall flag is found, let`s run it.\n"
        let _ ← spawn w
          { command := npm w, args := ["run", "postinstall"], cwd := none,
            exceptionIfErrorCode := true }
        loggerInfo "Postinstall is finished.\n"

      consoleTimeEnd timeLabel
      processExit 0

  loggerInfo
    ("Hash not found in cache, installing as npm " ++ " ".intercalate w.npmArgs ++ " ...\n")

  let res ← spawn w
    { command := npm w, args := w.npmArgs, cwd := some w.cwd, exceptionIfErrorCode := true }

  if includes res.out (r.nameAndVersion ++ " postinstall") then
    loggerInfo "Postinstall is detected, let`s save it.\n"
    touch postinstallFlagPath

  loggerInfo "Installing is done, zipping...\n"

  pack w w.cwd txzPath ["node_modules"]

  loggerInfo "Zipping is done.\n"
  consoleTimeEnd timeLabel

/-- What is left when the process has ended. -/
structure Final where
  trace : List Event
  files : Files
  exitCode : Nat
deriving DecidableEq, Repr

/-- Line 133 (`run();`) with lines 20-23: the promise of `run` has no handler, so
a rejection reaches the `unhandledRejection` handler, which logs the message and
exits with code 1; a call of `process.exit` ends the process with its code; when
`run` comes to its end the process ends with code 0. -/
def nmc (w : World) : Final :=
  match run w { trace := [], files := w.files } with
  | .ok _ s => { trace := s.trace, files := s.files, exitCode := 0 }
  | .exited c s => { trace := s.trace, files := s.files, exitCode := c }
  | .threw e s =>
      { trace := s.trace ++ [.consoleLog ("Unhandled Rejection Handler " ++ e), .processExit 1],
        files := s.files, exitCode := 1 }

/-! ## Notions used in the statements -/

/-- Line 81: the archive path of a fingerprint. -/
def txzPathOf (w : World) (hash : String) : String := pathJoin w.cacheDir (hash ++ ".txz")

/-- Line 82: the flag marker path of a fingerprint. -/
def flagPathOf (w : World) (hash : String) : String :=
  pathJoin w.cacheDir (hash ++ ".postinstall")

/-- The file exists and its size is strictly greater than the threshold 10. -/
def Archived (fs : Files) (path : String) : Prop :=
  ∃ size, fs.lookup path = some size ∧ 10 < size

/-- The calls of `unpack` in a trace, in order, with their arguments. -/
def unpackCalls (t : List Event) : List (String × String) :=
  t.filterMap fun e => match e with
    | .unpack c a => some (c, a)
    | _ => none

/-- The calls of `spawn` in a trace, in order, with their options. -/
def spawnCalls (t : List Event) : List SpawnOpts :=
  t.filterMap fun e => match e with
    | .spawn o => some o
    | _ => none

/-- The options of the spawn of the installer with the caller's arguments. -/
def installOpts (w : World) : SpawnOpts :=
  { command := npm w, args := w.npmArgs, cwd := some w.cwd, exceptionIfErrorCode := true }

/-- The calls of `pack` in a trace, in order, with their arguments. -/
def packCalls (t : List Event) : List (String × String × List String) :=
  t.filterMap fun e => match e with
    | .pack c a l => some (c, a, l)
    | _ => none

/-- The options of the spawn that replays the postinstall script (lines 94-98). -/
def postinstallOpts (w : World) : SpawnOpts :=
  { command := npm w, args := ["run", "postinstall"], cwd := none, exceptionIfErrorCode := true }

/-- The exit code and output of the installer run with the caller's arguments. -/
def installRes (w : World) : SpawnRes := w.child (npm w) w.npmArgs (some w.cwd)

/-- The exit code and output of the postinstall replay. -/
def postinstallRes (w : World) : SpawnRes := w.child (npm w) ["run", "postinstall"] none

/-- The calls every run that is not global starts with (lines 76-80). -/
def prologue (w : World) : List Event :=
  [.loggerInfo "Remove node_modules...", .rimrafSync (pathJoin w.cwd "node_modules"),
   .loggerInfo "Done.\n", .calcHash]

/-- The calls of the lookup (lines 84-87): `statSync` is reached only when the
file exists. -/
def probe (w : World) (hash : String) : List Event :=
  if (w.files.lookup (txzPathOf w hash)).isSome then
    [.existsSync (txzPathOf w hash), .statSync (txzPathOf w hash)]
  else [.existsSync (txzPathOf w hash)]

/-- The calls of a hit up to and including `unpack` (lines 84-89). -/
def restoreCalls (w : World) (r : HashInfo) : List Event :=
  prologue w ++
    [.existsSync (txzPathOf w r.hash), .statSync (txzPathOf w r.hash),
     .loggerInfo "Hash found in cache, unzipping...\n", .unpack w.cwd (txzPathOf w r.hash)]

/-- Lines 90-92 of a hit: the log line and the check for the flag marker. -/
def flagCheck (w : World) (r : HashInfo) : List Event :=
  [.loggerInfo "Unzipping is done, let`s check for postinstall.\n",
   .existsSync (flagPathOf w r.hash)]

/-- The calls of the handler of lines 20-23 for an error with message `e`. -/
def rejection (e : String) : List Event :=
  [.consoleLog ("Unhandled Rejection Handler " ++ e), .processExit 1]

/-- Line 107 and lines 113-118: the log line and the spawn of the miss path. -/
def installCalls (w : World) : List Event :=
  [.loggerInfo
     ("Hash not found in cache, installing as npm " ++ " ".intercalate w.npmArgs ++ " ...\n"),
   .spawn (installOpts w)]

/-- Lines 120-123: the calls that save the flag marker when the output of the
installer shows a postinstall script. -/
def flagCalls (w : World) (r : HashInfo) : List Event :=
  if includes (installRes w).out (r.nameAndVersion ++ " postinstall") then
    [.loggerInfo "Postinstall is detected, let`s save it.\n",
     .openSync (flagPathOf w r.hash) "w", .closeSync (flagPathOf w r.hash)]
  else []

/-- The files of the cache directory after lines 120-123. -/
def flagFiles (w : World) (r : HashInfo) : Files :=
  if includes (installRes w).out (r.nameAndVersion ++ " postinstall") then
    writeFile w.files (flagPathOf w r.hash) 0
  else w.files

/-- The event `a` occurs in the trace and the event `b` occurs later. -/
def Before (a b : Event) (t : List Event) : Prop :=
  ∃ l₁ l₂ l₃, t = l₁ ++ a :: l₂ ++ b :: l₃

/-- The text `s` contains `n` as a literal substring. -/
def Contains (s n : String) : Prop := ∃ a b : String, s = a ++ n ++ b

/-- Calls that write to the cache directory. -/
def Event.writesCache : Event → Bool
  | .openSync _ _ => true
  | .pack _ _ _ => true
  | _ => false

/-- Log lines and the timer report. -/
def Event.isLog : Event → Bool
  | .loggerInfo _ => true
  | .consoleLog _ => true
  | .timeEnd _ => true
  | _ => false

instance (fs : Files) (path : String) : Decidable (Archived fs path) :=
  match h : fs.lookup path with
  | some size =>
      if hs : 10 < size then isTrue ⟨size, h, hs⟩
      else isFalse (by rintro ⟨n, hn, hs1⟩; rw [h] at hn; cases hn; exact hs hs1)
  | none => isFalse (by rintro ⟨n, hn, _⟩; rw [h] at hn; cases hn)

/-! ## Worlds used as concrete inputs -/

/-- A project with an empty cache; the installer succeeds and reports a
postinstall script of the project; `pack` succeeds. -/
def wFresh : World :=
  { cacheDir := "/cache", npmArgs := ["ci"], cwd := "/proj", NPM_ORIG := none,
    files := [],
    calcHash := .ok { hash := "ab12", nameAndVersion := "my-pkg@1.0.0" },
    child := fun _ _ _ => { code := 0, out := "> my-pkg@1.0.0 postinstall /proj" },
    unpack := fun _ _ => .ok (),
    pack := fun _ _ _ => .ok 2048 }

/-- The archive of the fingerprint is there, 4096 bytes, without flag marker. -/
def wHit : World := { wFresh with files := [("/cache/ab12.txz", 4096)] }

/-- The archive and the flag marker are there; the replay of postinstall fails. -/
def wHitFlag : World :=
  { wFresh with
    files := [("/cache/ab12.txz", 4096), ("/cache/ab12.postinstall", 0)],
    child := fun _ _ _ => { code := 3, out := "postinstall failed" } }

/-- The archive is there with exactly 10 bytes. -/
def wTruncated : World := { wFresh with files := [("/cache/ab12.txz", 10)] }

/-- The archive is there, but `unpack` fails on it. -/
def wCorrupt : World :=
  { wHit with unpack := fun _ _ => .error "corrupt archive" }

/-- An empty cache and an installer that exits with code 2. -/
def wInstallFails : World :=
  { wFresh with child := fun _ _ _ => { code := 2, out := "npm ERR!" } }

/-- An empty cache, a successful install, and a `pack` that fails. -/
def wPackFails : World := { wFresh with pack := fun _ _ _ => .error "disk full" }

/-- A directory without manifest. -/
def wNoManifest : World := { wFresh with calcHash := .error "no package.json" }

/-! ## The paths of a run -/

theorem nmc_no_manifest (w : World) (e : String) (hg : "-g" ∉ w.npmArgs)
    (hc : w.calcHash = .error e) :
    nmc w = { trace := prologue w ++ rejection e, files := w.files, exitCode := 1 } := by
  simp [nmc, run, bind, Run.bind, pure, hg, hc, loggerInfo, emit, rimrafSync, calcHash,
    rejection, prologue]

theorem nmc_unpack_fail (w : World) (r : HashInfo) (e : String) (hg : "-g" ∉ w.npmArgs)
    (hc : w.calcHash = .ok r) (ha : Archived w.files (txzPathOf w r.hash))
    (hu : w.unpack w.cwd (txzPathOf w r.hash) = .error e) :
    nmc w = { trace := restoreCalls w r ++ rejection e, files := w.files, exitCode := 1 } := by
  obtain ⟨size, hl, hs⟩ := ha
  simp only [txzPathOf] at hl hu
  simp [nmc, run, bind, Run.bind, pure, hg, hc, hl, hs, hu, loggerInfo, emit, rimrafSync,
    calcHash, existsSync, statSyncSize, unpack, rejection, prologue, restoreCalls, txzPathOf]

theorem nmc_hit_plain (w : World) (r : HashInfo) (hg : "-g" ∉ w.npmArgs)
    (hc : w.calcHash = .ok r) (ha : Archived w.files (txzPathOf w r.hash))
    (hu : w.unpack w.cwd (txzPathOf w r.hash) = .ok ())
    (hf : w.files.lookup (flagPathOf w r.hash) = none) :
    nmc w =
      { trace := restoreCalls w r ++ flagCheck w r ++ [.timeEnd timeLabel, .processExit 0],
        files := w.files, exitCode := 0 } := by
  obtain ⟨size, hl, hs⟩ := ha
  simp only [txzPathOf] at hl hu
  simp only [flagPathOf] at hf
  simp [nmc, run, bind, Run.bind, pure, hg, hc, hl, hs, hu, hf, loggerInfo, emit, rimrafSync,
    calcHash, existsSync, statSyncSize, unpack, processExit, consoleTimeEnd, prologue,
    restoreCalls, flagCheck, txzPathOf, flagPathOf]

theorem nmc_hit_replay_ok (w : World) (r : HashInfo) (hg : "-g" ∉ w.npmArgs)
    (hc : w.calcHash = .ok r) (ha : Archived w.files (txzPathOf w r.hash))
    (hu : w.unpack w.cwd (txzPathOf w r.hash) = .ok ())
    (hf : (w.files.lookup (flagPathOf w r.hash)).isSome = true)
    (h0 : (postinstallRes w).code = 0) :
    nmc w =
      { trace := restoreCalls w r ++ flagCheck w r ++
          [.loggerInfo "Postinstall flag is found, let`s run it.\n", .spawn (postinstallOpts w),
           .loggerInfo "Postinstall is finished.\n", .timeEnd timeLabel, .processExit 0],
        files := w.files, exitCode := 0 } := by
  obtain ⟨size, hl, hs⟩ := ha
  simp only [txzPathOf] at hl hu
  simp only [flagPathOf] at hf
  simp only [postinstallRes] at h0
  simp [nmc, run, bind, Run.bind, pure, hg, hc, hl, hs, hu, hf, h0, loggerInfo, emit,
    rimrafSync, calcHash, existsSync, statSyncSize, unpack, spawn, processExit, consoleTimeEnd,
    prologue, restoreCalls, flagCheck, txzPathOf, flagPathOf, postinstallOpts]

theorem nmc_hit_replay_fail (w : World) (r : HashInfo) (hg : "-g" ∉ w.npmArgs)
    (hc : w.calcHash = .ok r) (ha : Archived w.files (txzPathOf w r.hash))
    (hu : w.unpack w.cwd (txzPathOf w r.hash) = .ok ())
    (hf : (w.files.lookup (flagPathOf w r.hash)).isSome = true)
    (h0 : (postinstallRes w).code ≠ 0) :
    nmc w =
      { trace := restoreCalls w r ++ flagCheck w r ++
          [.loggerInfo "Postinstall flag is found, let`s run it.\n", .spawn (postinstallOpts w)]
          ++ rejection (postinstallRes w).out,
        files := w.files, exitCode := 1 } := by
  obtain ⟨size, hl, hs⟩ := ha
  simp only [txzPathOf] at hl hu
  simp only [flagPathOf] at hf
  simp only [postinstallRes] at h0
  simp [nmc, run, bind, Run.bind, pure, hg, hc, hl, hs, hu, hf, h0, loggerInfo, emit,
    rimrafSync, calcHash, existsSync, statSyncSize, unpack, spawn, processExit, consoleTimeEnd,
    prologue, restoreCalls, flagCheck, txzPathOf, flagPathOf, postinstallOpts, rejection,
    postinstallRes]

theorem nmc_install_fail (w : World) (r : HashInfo) (hg : "-g" ∉ w.npmArgs)
    (hc : w.calcHash = .ok r) (ha : ¬ Archived w.files (txzPathOf w r.hash))
    (h0 : (installRes w).code ≠ 0) :
    nmc w =
      { trace := prologue w ++ probe w r.hash ++ installCalls w ++ rejection (installRes w).out,
        files := w.files, exitCode := 1 } := by
  simp only [installRes] at h0
  simp only [Archived, txzPathOf, not_exists, not_and] at ha
  rcases hl : w.files.lookup (pathJoin w.cacheDir (r.hash ++ ".txz")) with _ | size
  · simp [nmc, run, bind, Run.bind, pure, hg, hc, hl, h0, loggerInfo, emit, rimrafSync,
      calcHash, existsSync, statSyncSize, spawn, prologue, probe, installCalls, installOpts,
      installRes, rejection, txzPathOf]
  · have hs := ha size hl
    simp [nmc, run, bind, Run.bind, pure, hg, hc, hl, hs, h0, loggerInfo, emit, rimrafSync,
      calcHash, existsSync, statSyncSize, spawn, prologue, probe, installCalls, installOpts,
      installRes, rejection, txzPathOf]

theorem nmc_pack_fail (w : World) (r : HashInfo) (e : String) (hg : "-g" ∉ w.npmArgs)
    (hc : w.calcHash = .ok r) (ha : ¬ Archived w.files (txzPathOf w r.hash))
    (h0 : (installRes w).code = 0)
    (hp : w.pack w.cwd (txzPathOf w r.hash) ["node_modules"] = .error e) :
    nmc w =
      { trace := prologue w ++ probe w r.hash ++ installCalls w ++ flagCalls w r ++
          [.loggerInfo "Installing is done, zipping...\n",
           .pack w.cwd (txzPathOf w r.hash) ["node_modules"]] ++ rejection e,
        files := flagFiles w r, exitCode := 1 } := by
  simp only [installRes] at h0
  simp only [txzPathOf] at hp
  simp only [Archived, txzPathOf, not_exists, not_and] at ha
  rcases hl : w.files.lookup (pathJoin w.cacheDir (r.hash ++ ".txz")) with _ | size <;>
  rcases hi : includes (w.child (npm w) w.npmArgs (some w.cwd)).out
      (r.nameAndVersion ++ " postinstall") <;>
  simp [nmc, run, bind, Run.bind, pure, hg, hc, hl, hi, hp, h0, ha, loggerInfo, emit,
      rimrafSync, calcHash, existsSync, statSyncSize, spawn, touch, pack, prologue, probe,
      installCalls, installOpts, installRes, rejection, txzPathOf, flagPathOf, flagCalls,
      flagFiles]

theorem nmc_pack_ok (w : World) (r : HashInfo) (n : Nat) (hg : "-g" ∉ w.npmArgs)
    (hc : w.calcHash = .ok r) (ha : ¬ Archived w.files (txzPathOf w r.hash))
    (h0 : (installRes w).code = 0)
    (hp : w.pack w.cwd (txzPathOf w r.hash) ["node_modules"] = .ok n) :
    nmc w =
      { trace := prologue w ++ probe w r.hash ++ installCalls w ++ flagCalls w r ++
          [.loggerInfo "Installing is done, zipping...\n",
           .pack w.cwd (txzPathOf w r.hash) ["node_modules"],
           .loggerInfo "Zipping is done.\n", .timeEnd timeLabel],
        files := writeFile (flagFiles w r) (txzPathOf w r.hash) n, exitCode := 0 } := by
  simp only [installRes] at h0
  simp only [txzPathOf] at hp
  simp only [Archived, txzPathOf, not_exists, not_and] at ha
  rcases hl : w.files.lookup (pathJoin w.cacheDir (r.hash ++ ".txz")) with _ | size <;>
  rcases hi : includes (w.child (npm w) w.npmArgs (some w.cwd)).out
      (r.nameAndVersion ++ " postinstall") <;>
  simp [nmc, run, bind, Run.bind, pure, hg, hc, hl, hi, hp, h0, ha, loggerInfo, emit,
      rimrafSync, calcHash, existsSync, statSyncSize, spawn, touch, pack, consoleTimeEnd,
      prologue, probe, installCalls, installOpts, installRes, txzPathOf, flagPathOf, flagCalls,
      flagFiles]

/-! ## Texts, paths and files -/

theorem startsWith_iff (n p : List Char) : startsWith n p = true ↔ ∃ b, p = n ++ b := by
  induction n generalizing p with
  | nil => simp [startsWith]
  | cons a n ih =>
    cases p with
    | nil => simp [startsWith]
    | cons c p =>
      simp only [startsWith, Bool.and_eq_true, beq_iff_eq, ih, List.cons_append, List.cons.injEq]
      constructor
      · rintro ⟨rfl, b, rfl⟩
        exact ⟨b, rfl, rfl⟩
      · rintro ⟨b, rfl, rfl⟩
        exact ⟨rfl, b, rfl⟩

theorem includesChars_iff (n p : List Char) :
    includesChars n p = true ↔ ∃ a b, p = a ++ n ++ b := by
  induction p with
  | nil =>
    simp only [includesChars, startsWith_iff]
    constructor
    · rintro ⟨b, hb⟩
      exact ⟨[], b, by simpa using hb⟩
    · rintro ⟨a, b, hab⟩
      have h1 : a = [] ∧ n = [] ∧ b = [] := by simpa [eq_comm] using hab
      exact ⟨[], by simp [h1.2.1]⟩
  | cons c p ih =>
    simp only [includesChars, Bool.or_eq_true, startsWith_iff, ih]
    constructor
    · rintro (⟨b, hb⟩ | ⟨a, b, hab⟩)
      · exact ⟨[], b, by simpa using hb⟩
      · exact ⟨c :: a, b, by simp [hab]⟩
    · rintro ⟨a, b, hab⟩
      cases a with
      | nil => exact Or.inl ⟨b, by simpa using hab⟩
      | cons d a =>
        simp only [List.cons_append, List.cons.injEq] at hab
        exact Or.inr ⟨a, b, hab.2⟩

theorem includes_iff (s n : String) : includes s n = true ↔ Contains s n := by
  simp only [includes, includesChars_iff, Contains]
  constructor
  · rintro ⟨a, b, hab⟩
    exact ⟨⟨a⟩, ⟨b⟩, String.ext (by simpa using hab)⟩
  · rintro ⟨a, b, rfl⟩
    exact ⟨a.data, b.data, by simp⟩

theorem flagPath_ne_txzPath (w : World) (hash : String) : flagPathOf w hash ≠ txzPathOf w hash := by
  intro h
  have h1 := congrArg String.data h
  simp [flagPathOf, txzPathOf, pathJoin] at h1

theorem lookup_writeFile_ne (fs : Files) (p q : String) (n : Nat) (h : p ≠ q) :
    (writeFile fs q n).lookup p = fs.lookup p := by
  have hpq : (p == q) = false := by simpa using h
  simp only [writeFile, List.lookup, hpq]
  induction fs with
  | nil => rfl
  | cons f fs ih =>
    obtain ⟨k, v⟩ := f
    by_cases hk : k = q
    · subst hk
      simp [List.filter, List.lookup, hpq, ih]
    · have hkq : (k != q) = true := by simpa using hk
      simp only [List.filter, hkq, List.lookup, ih]

/-! ## Shapes of the traces -/

theorem hit_trace (w : World) (r : HashInfo) (hg : "-g" ∉ w.npmArgs) (hc : w.calcHash = .ok r)
    (ha : Archived w.files (txzPathOf w r.hash)) :
    ∃ rest, (nmc w).trace = restoreCalls w r ++ rest := by
  rcases hu : w.unpack w.cwd (txzPathOf w r.hash) with e | u
  · exact ⟨_, by rw [nmc_unpack_fail w r e hg hc ha hu]⟩
  · rcases hf : w.files.lookup (flagPathOf w r.hash) with _ | n
    · exact ⟨_, by rw [nmc_hit_plain w r hg hc ha hu hf, List.append_assoc]⟩
    · have hf1 : (w.files.lookup (flagPathOf w r.hash)).isSome = true := by simp [hf]
      by_cases h0 : (postinstallRes w).code = 0
      · exact ⟨_, by rw [nmc_hit_replay_ok w r hg hc ha hu hf1 h0, List.append_assoc]⟩
      · exact ⟨_, by rw [nmc_hit_replay_fail w r hg hc ha hu hf1 h0, List.append_assoc,
          List.append_assoc]⟩

theorem miss_trace (w : World) (r : HashInfo) (hg : "-g" ∉ w.npmArgs) (hc : w.calcHash = .ok r)
    (ha : ¬ Archived w.files (txzPathOf w r.hash)) :
    ∃ rest, (nmc w).trace = prologue w ++ probe w r.hash ++ installCalls w ++ rest ∧
      unpackCalls rest = [] ∧ spawnCalls rest = [] := by
  by_cases h0 : (installRes w).code = 0
  · rcases hp : w.pack w.cwd (txzPathOf w r.hash) ["node_modules"] with e | n
    · refine ⟨_, by rw [nmc_pack_fail w r e hg hc ha h0 hp, List.append_assoc, List.append_assoc],
        ?_, ?_⟩ <;>
      · simp only [flagCalls, rejection]
        split <;> simp [unpackCalls, spawnCalls]
    · refine ⟨_, by rw [nmc_pack_ok w r n hg hc ha h0 hp, List.append_assoc], ?_, ?_⟩ <;>
      · simp only [flagCalls]
        split <;> simp [unpackCalls, spawnCalls]
  · exact ⟨_, by rw [nmc_install_fail w r hg hc ha h0], by simp [unpackCalls, rejection],
      by simp [spawnCalls, rejection]⟩

theorem unpackCalls_probe (w : World) (hash : String) : unpackCalls (probe w hash) = [] := by
  simp only [probe]
  split <;> simp [unpackCalls]

theorem spawnCalls_probe (w : World) (hash : String) : spawnCalls (probe w hash) = [] := by
  simp only [probe]
  split <;> simp [spawnCalls]

theorem packCalls_probe (w : World) (hash : String) : packCalls (probe w hash) = [] := by
  simp only [probe]
  split <;> simp [packCalls]

/-! ## The claims -/

/-- C1: in a run that is not global, with the hash returned by `calcHash`, `unpack`
is called if and only if the file `<cacheDir>/<hash>.txz` exists and its size is
strictly greater than 10; when the file is absent or its size is at most 10,
`unpack` is never called and the installer is spawned, once, with the caller's
arguments. -/
theorem unpack_iff_archived (w : World) (r : HashInfo) (hg : "-g" ∉ w.npmArgs)
    (hc : w.calcHash = .ok r) :
    (unpackCalls (nmc w).trace ≠ [] ↔ Archived w.files (txzPathOf w r.hash)) ∧
    (¬ Archived w.files (txzPathOf w r.hash) →
      unpackCalls (nmc w).trace = [] ∧ spawnCalls (nmc w).trace = [installOpts w]) := by
  have hmiss : ¬ Archived w.files (txzPathOf w r.hash) →
      unpackCalls (nmc w).trace = [] ∧ spawnCalls (nmc w).trace = [installOpts w] := by
    intro ha
    obtain ⟨rest, ht, hu, hs⟩ := miss_trace w r hg hc ha
    rw [ht]
    constructor
    · simp only [unpackCalls, List.filterMap_append] at hu ⊢
      rw [hu]
      have := unpackCalls_probe w r.hash
      simp only [unpackCalls] at this
      simp [this, prologue, installCalls]
    · simp only [spawnCalls, List.filterMap_append] at hs ⊢
      rw [hs]
      have := spawnCalls_probe w r.hash
      simp only [spawnCalls] at this
      simp [this, prologue, installCalls]
  refine ⟨?_, hmiss⟩
  by_cases ha : Archived w.files (txzPathOf w r.hash)
  · obtain ⟨rest, ht⟩ := hit_trace w r hg hc ha
    simp [ha, ht, unpackCalls, restoreCalls, prologue]
  · simp [ha, (hmiss ha).1]

/-- Witness of C1: an archive of exactly 10 bytes is not unpacked. -/
theorem unpack_iff_archived_witness :
    "-g" ∉ wTruncated.npmArgs ∧
    wTruncated.calcHash = .ok { hash := "ab12", nameAndVersion := "my-pkg@1.0.0" } ∧
    ((unpackCalls (nmc wTruncated).trace ≠ [] ↔
        Archived wTruncated.files (txzPathOf wTruncated "ab12")) ∧
      (¬ Archived wTruncated.files (txzPathOf wTruncated "ab12") →
        unpackCalls (nmc wTruncated).trace = [] ∧
        spawnCalls (nmc wTruncated).trace = [installOpts wTruncated])) :=
  ⟨by decide, rfl,
    unpack_iff_archived wTruncated { hash := "ab12", nameAndVersion := "my-pkg@1.0.0" }
      (by decide) rfl⟩

/-- Counterexample to C2: the archive is there with 4096 bytes and `unpack` fails
on it; the installer is not spawned and the process exits with code 1. -/
theorem unpack_failure_counterexample :
    "-g" ∉ wCorrupt.npmArgs ∧
    wCorrupt.calcHash = .ok { hash := "ab12", nameAndVersion := "my-pkg@1.0.0" } ∧
    Archived wCorrupt.files (txzPathOf wCorrupt "ab12") ∧
    wCorrupt.unpack wCorrupt.cwd (txzPathOf wCorrupt "ab12") = .error "corrupt archive" ∧
    installOpts wCorrupt ∉ spawnCalls (nmc wCorrupt).trace ∧
    (nmc wCorrupt).exitCode = 1 :=
  ⟨by decide, rfl, by decide, rfl, by decide, by decide⟩

/-- C2, amended: in a run that is not global in which the archive exists with a
size above the threshold but `unpack` raises an error, the run aborts: `unpack`
was the last collaborator called, no installer is spawned, nothing is packed, the
cache directory is as before, the handler of unhandled rejections logs the error
and the process exits with code 1. -/
theorem unpack_failure_aborts (w : World) (r : HashInfo) (e : String) (hg : "-g" ∉ w.npmArgs)
    (hc : w.calcHash = .ok r) (ha : Archived w.files (txzPathOf w r.hash))
    (hu : w.unpack w.cwd (txzPathOf w r.hash) = .error e) :
    (nmc w).trace = restoreCalls w r ++ rejection e ∧
    spawnCalls (nmc w).trace = [] ∧
    packCalls (nmc w).trace = [] ∧
    (nmc w).files = w.files ∧
    (nmc w).exitCode = 1 := by
  rw [nmc_unpack_fail w r e hg hc ha hu]
  simp [spawnCalls, packCalls, restoreCalls, prologue, rejection]

/-- Witness of the amended C2. -/
theorem unpack_failure_aborts_witness :
    "-g" ∉ wCorrupt.npmArgs ∧
    Archived wCorrupt.files (txzPathOf wCorrupt "ab12") ∧
    ((nmc wCorrupt).trace =
        restoreCalls wCorrupt { hash := "ab12", nameAndVersion := "my-pkg@1.0.0" } ++
          rejection "corrupt archive" ∧
      spawnCalls (nmc wCorrupt).trace = [] ∧
      packCalls (nmc wCorrupt).trace = [] ∧
      (nmc wCorrupt).files = wCorrupt.files ∧
      (nmc wCorrupt).exitCode = 1) :=
  ⟨by decide, by decide,
    unpack_failure_aborts wCorrupt { hash := "ab12", nameAndVersion := "my-pkg@1.0.0" }
      "corrupt archive" (by decide) rfl (by decide) rfl⟩

/-- C3: in a cache-miss run that is not global in which the installer exits with a
nonzero code, no cache write is attempted: no call writes to the cache directory,
the flag marker is not opened, `pack` is not called, the files of the cache
directory are those from before the run, and the exit code is nonzero. -/
theorem failed_install_writes_nothing (w : World) (r : HashInfo) (hg : "-g" ∉ w.npmArgs)
    (hc : w.calcHash = .ok r) (ha : ¬ Archived w.files (txzPathOf w r.hash))
    (h0 : (installRes w).code ≠ 0) :
    (∀ e ∈ (nmc w).trace, e.writesCache = false) ∧
    (∀ flags, Event.openSync (flagPathOf w r.hash) flags ∉ (nmc w).trace) ∧
    packCalls (nmc w).trace = [] ∧
    (nmc w).files = w.files ∧
    (nmc w).exitCode ≠ 0 := by
  rw [nmc_install_fail w r hg hc ha h0]
  have hp := packCalls_probe w r.hash
  simp only [packCalls] at hp
  refine ⟨?_, ?_, ?_, rfl, by simp⟩
  · simp only [probe]
    split <;> simp [prologue, installCalls, rejection, Event.writesCache]
  · simp only [probe]
    split <;> simp [prologue, installCalls, rejection]
  · simp [packCalls, List.filterMap_append, hp, prologue, installCalls, rejection]

/-- Witness of C3: an empty cache and an installer that exits with code 2. -/
theorem failed_install_writes_nothing_witness :
    "-g" ∉ wInstallFails.npmArgs ∧
    ¬ Archived wInstallFails.files (txzPathOf wInstallFails "ab12") ∧
    (installRes wInstallFails).code ≠ 0 ∧
    ((∀ e ∈ (nmc wInstallFails).trace, e.writesCache = false) ∧
      (∀ flags, Event.openSync (flagPathOf wInstallFails "ab12") flags ∉
        (nmc wInstallFails).trace) ∧
      packCalls (nmc wInstallFails).trace = [] ∧
      (nmc wInstallFails).files = wInstallFails.files ∧
      (nmc wInstallFails).exitCode ≠ 0) :=
  ⟨by decide, by decide, by decide,
    failed_install_writes_nothing wInstallFails
      { hash := "ab12", nameAndVersion := "my-pkg@1.0.0" } (by decide) rfl (by decide)
      (by decide)⟩

/-- C4: in a run that is not global and is a cache hit (the archive exists with a
size above 10 and `unpack` succeeds), the installer is spawned with the arguments
`['run', 'postinstall']` if and only if the flag marker `<cacheDir>/<hash>.postinstall`
exists; that spawn is then the only spawn of the run and comes after `unpack`; and
when it fails the run does not reach `process.exit(0)` and ends with a nonzero
exit code. -/
theorem replay_iff_flag (w : World) (r : HashInfo) (hg : "-g" ∉ w.npmArgs)
    (hc : w.calcHash = .ok r) (ha : Archived w.files (txzPathOf w r.hash))
    (hu : w.unpack w.cwd (txzPathOf w r.hash) = .ok ()) :
    ((∃ o ∈ spawnCalls (nmc w).trace, o.args = ["run", "postinstall"]) ↔
      (w.files.lookup (flagPathOf w r.hash)).isSome = true) ∧
    ((w.files.lookup (flagPathOf w r.hash)).isSome = true →
      spawnCalls (nmc w).trace = [postinstallOpts w] ∧
      Before (.unpack w.cwd (txzPathOf w r.hash)) (.spawn (postinstallOpts w)) (nmc w).trace ∧
      ((postinstallRes w).code ≠ 0 →
        Event.processExit 0 ∉ (nmc w).trace ∧ (nmc w).exitCode ≠ 0)) := by
  rcases hf : w.files.lookup (flagPathOf w r.hash) with _ | n
  · rw [nmc_hit_plain w r hg hc ha hu hf]
    simp [spawnCalls, restoreCalls, prologue, flagCheck]
  · have hf1 : (w.files.lookup (flagPathOf w r.hash)).isSome = true := by simp [hf]
    by_cases h0 : (postinstallRes w).code = 0
    · rw [nmc_hit_replay_ok w r hg hc ha hu hf1 h0]
      refine ⟨by simp [spawnCalls, restoreCalls, prologue, flagCheck, postinstallOpts], fun _ =>
        ⟨by simp [spawnCalls, restoreCalls, prologue, flagCheck], ?_, fun h => absurd h0 h⟩⟩
      exact ⟨prologue w ++ [.existsSync (txzPathOf w r.hash), .statSync (txzPathOf w r.hash),
          .loggerInfo "Hash found in cache, unzipping...\n"],
        flagCheck w r ++ [.loggerInfo "Postinstall flag is found, let`s run it.\n"],
        [.loggerInfo "Postinstall is finished.\n", .timeEnd timeLabel, .processExit 0],
        by simp [restoreCalls]⟩
    · rw [nmc_hit_replay_fail w r hg hc ha hu hf1 h0]
      refine ⟨by simp [spawnCalls, restoreCalls, prologue, flagCheck, postinstallOpts, rejection],
        fun _ => ⟨by simp [spawnCalls, restoreCalls, prologue, flagCheck, rejection], ?_,
          fun _ => ⟨by simp [restoreCalls, prologue, flagCheck, rejection], by simp⟩⟩⟩
      exact ⟨prologue w ++ [.existsSync (txzPathOf w r.hash), .statSync (txzPathOf w r.hash),
          .loggerInfo "Hash found in cache, unzipping...\n"],
        flagCheck w r ++ [.loggerInfo "Postinstall flag is found, let`s run it.\n"],
        rejection (postinstallRes w).out,
        by simp [restoreCalls]⟩

/-- Witness of C4: the archive and the flag marker are there and the replay fails. -/
theorem replay_iff_flag_witness :
    "-g" ∉ wHitFlag.npmArgs ∧
    Archived wHitFlag.files (txzPathOf wHitFlag "ab12") ∧
    (((∃ o ∈ spawnCalls (nmc wHitFlag).trace, o.args = ["run", "postinstall"]) ↔
        (wHitFlag.files.lookup (flagPathOf wHitFlag "ab12")).isSome = true) ∧
      ((wHitFlag.files.lookup (flagPathOf wHitFlag "ab12")).isSome = true →
        spawnCalls (nmc wHitFlag).trace = [postinstallOpts wHitFlag] ∧
        Before (.unpack wHitFlag.cwd (txzPathOf wHitFlag "ab12"))
          (.spawn (postinstallOpts wHitFlag)) (nmc wHitFlag).trace ∧
        ((postinstallRes wHitFlag).code ≠ 0 →
          Event.processExit 0 ∉ (nmc wHitFlag).trace ∧ (nmc wHitFlag).exitCode ≠ 0))) :=
  ⟨by decide, by decide,
    replay_iff_flag wHitFlag { hash := "ab12", nameAndVersion := "my-pkg@1.0.0" }
      (by decide) rfl (by decide) rfl⟩

/-- The calls of a miss whose installer succeeds, up to and including `pack`, and
what the cache directory holds for the flag marker afterwards. -/
theorem stored_trace (w : World) (r : HashInfo) (hg : "-g" ∉ w.npmArgs)
    (hc : w.calcHash = .ok r) (ha : ¬ Archived w.files (txzPathOf w r.hash))
    (h0 : (installRes w).code = 0) :
    ∃ rest, (nmc w).trace = prologue w ++ probe w r.hash ++ installCalls w ++ flagCalls w r ++
        [.loggerInfo "Installing is done, zipping...\n",
         .pack w.cwd (txzPathOf w r.hash) ["node_modules"]] ++ rest ∧
      (nmc w).files.lookup (flagPathOf w r.hash) =
        (flagFiles w r).lookup (flagPathOf w r.hash) := by
  rcases hp : w.pack w.cwd (txzPathOf w r.hash) ["node_modules"] with e | n
  · exact ⟨_, by rw [nmc_pack_fail w r e hg hc ha h0 hp], by rw [nmc_pack_fail w r e hg hc ha h0 hp]⟩
  · refine ⟨[.loggerInfo "Zipping is done.\n", .timeEnd timeLabel], ?_, ?_⟩
    · rw [nmc_pack_ok w r n hg hc ha h0 hp]
      simp
    · rw [nmc_pack_ok w r n hg hc ha h0 hp]
      exact lookup_writeFile_ne _ _ _ _ (flagPath_ne_txzPath w r.hash)

/-- C5: in a cache-miss run that is not global whose installer succeeds with output
`out`, with the identifier `nv` returned by `calcHash`: the flag marker
`<cacheDir>/<hash>.postinstall` is created (opened for writing) if and only if `out`
contains `nv` followed by `" postinstall"`; it is created before `pack` is called;
and when no marker existed before the run and `out` lacks the substring, no marker
exists afterwards. -/
theorem flag_saved_iff_output (w : World) (r : HashInfo) (hg : "-g" ∉ w.npmArgs)
    (hc : w.calcHash = .ok r) (ha : ¬ Archived w.files (txzPathOf w r.hash))
    (h0 : (installRes w).code = 0) :
    (Event.openSync (flagPathOf w r.hash) "w" ∈ (nmc w).trace ↔
      Contains (installRes w).out (r.nameAndVersion ++ " postinstall")) ∧
    (Contains (installRes w).out (r.nameAndVersion ++ " postinstall") →
      Before (.openSync (flagPathOf w r.hash) "w")
        (.pack w.cwd (txzPathOf w r.hash) ["node_modules"]) (nmc w).trace) ∧
    (w.files.lookup (flagPathOf w r.hash) = none →
      ¬ Contains (installRes w).out (r.nameAndVersion ++ " postinstall") →
      (nmc w).files.lookup (flagPathOf w r.hash) = none) := by
  obtain ⟨rest, ht, hfl⟩ := stored_trace w r hg hc ha h0
  have hrest : Event.openSync (flagPathOf w r.hash) "w" ∉ rest := by
    rcases hp : w.pack w.cwd (txzPathOf w r.hash) ["node_modules"] with e | n
    · have h1 := ht
      rw [nmc_pack_fail w r e hg hc ha h0 hp] at h1
      have h2 := List.append_cancel_left h1
      simp [← h2, rejection]
    · have h1 := ht
      rw [nmc_pack_ok w r n hg hc ha h0 hp] at h1
      have h2 : [Event.loggerInfo "Zipping is done.\n", Event.timeEnd timeLabel] = rest := by
        simpa using h1
      simp [← h2]
  have hprobe : Event.openSync (flagPathOf w r.hash) "w" ∉ probe w r.hash := by
    simp only [probe]
    split <;> simp
  rw [ht, hfl, ← includes_iff]
  by_cases hi : includes (installRes w).out (r.nameAndVersion ++ " postinstall") = true
  · refine ⟨by simp [flagCalls, hi], fun _ => ?_, fun _ h => absurd hi h⟩
    exact ⟨prologue w ++ probe w r.hash ++ installCalls w ++
        [.loggerInfo "Postinstall is detected, let`s save it.\n"],
      [.closeSync (flagPathOf w r.hash), .loggerInfo "Installing is done, zipping...\n"],
      rest, by simp [flagCalls, hi]⟩
  · refine ⟨?_, fun h => absurd h hi, fun hn _ => by simp [flagFiles, hi, hn]⟩
    simp [flagCalls, hi, hrest, hprobe, prologue, installCalls]

/-- Witness of C5: the output of the installer names the postinstall script. -/
theorem flag_saved_iff_output_witness :
    "-g" ∉ wFresh.npmArgs ∧
    ¬ Archived wFresh.files (txzPathOf wFresh "ab12") ∧
    (installRes wFresh).code = 0 ∧
    ((Event.openSync (flagPathOf wFresh "ab12") "w" ∈ (nmc wFresh).trace ↔
        Contains (installRes wFresh).out ("my-pkg@1.0.0" ++ " postinstall")) ∧
      (Contains (installRes wFresh).out ("my-pkg@1.0.0" ++ " postinstall") →
        Before (.openSync (flagPathOf wFresh "ab12") "w")
          (.pack wFresh.cwd (txzPathOf wFresh "ab12") ["node_modules"]) (nmc wFresh).trace) ∧
      (wFresh.files.lookup (flagPathOf wFresh "ab12") = none →
        ¬ Contains (installRes wFresh).out ("my-pkg@1.0.0" ++ " postinstall") →
        (nmc wFresh).files.lookup (flagPathOf wFresh "ab12") = none)) :=
  ⟨by decide, by decide, by decide,
    flag_saved_iff_output wFresh { hash := "ab12", nameAndVersion := "my-pkg@1.0.0" }
      (by decide) rfl (by decide) (by decide)⟩

/-- C7: in a run that is not global and is a cache hit without flag marker (the
archive exists with a size above 10, `unpack` succeeds, no marker): the installer
is not invoked, `unpack(cwd, <cacheDir>/<hash>.txz)` is called exactly once, `pack`
is not called, no call writes to the cache directory and its files are those from
before the run, and the process exits with code 0. -/
theorem plain_hit_leaves_cache (w : World) (r : HashInfo) (hg : "-g" ∉ w.npmArgs)
    (hc : w.calcHash = .ok r) (ha : Archived w.files (txzPathOf w r.hash))
    (hu : w.unpack w.cwd (txzPathOf w r.hash) = .ok ())
    (hf : w.files.lookup (flagPathOf w r.hash) = none) :
    spawnCalls (nmc w).trace = [] ∧
    unpackCalls (nmc w).trace = [(w.cwd, txzPathOf w r.hash)] ∧
    packCalls (nmc w).trace = [] ∧
    (∀ e ∈ (nmc w).trace, e.writesCache = false) ∧
    (nmc w).files = w.files ∧
    (nmc w).files.lookup (flagPathOf w r.hash) = none ∧
    (nmc w).exitCode = 0 := by
  rw [nmc_hit_plain w r hg hc ha hu hf]
  simp [spawnCalls, unpackCalls, packCalls, restoreCalls, prologue, flagCheck,
    Event.writesCache, hf]

/-- Witness of C7: the archive is there with 4096 bytes, without flag marker. -/
theorem plain_hit_leaves_cache_witness :
    "-g" ∉ wHit.npmArgs ∧
    Archived wHit.files (txzPathOf wHit "ab12") ∧
    wHit.files.lookup (flagPathOf wHit "ab12") = none ∧
    (spawnCalls (nmc wHit).trace = [] ∧
      unpackCalls (nmc wHit).trace = [(wHit.cwd, txzPathOf wHit "ab12")] ∧
      packCalls (nmc wHit).trace = [] ∧
      (∀ e ∈ (nmc wHit).trace, e.writesCache = false) ∧
      (nmc wHit).files = wHit.files ∧
      (nmc wHit).files.lookup (flagPathOf wHit "ab12") = none ∧
      (nmc wHit).exitCode = 0) :=
  ⟨by decide, by decide, by decide,
    plain_hit_leaves_cache wHit { hash := "ab12", nameAndVersion := "my-pkg@1.0.0" }
      (by decide) rfl (by decide) rfl (by decide)⟩

/-- C8: in a cache-miss run that is not global whose installer and `pack` both
succeed: the installer is spawned exactly once, with the caller's arguments and
the working directory `cwd`; `pack(cwd, <cacheDir>/<hash>.txz, ['node_modules'])` is
called exactly once, after the spawn, on the path the lookup checked; `unpack` is
never called; and the exit code is 0. -/
theorem fresh_install_is_stored (w : World) (r : HashInfo) (n : Nat) (hg : "-g" ∉ w.npmArgs)
    (hc : w.calcHash = .ok r) (ha : ¬ Archived w.files (txzPathOf w r.hash))
    (h0 : (installRes w).code = 0)
    (hp : w.pack w.cwd (txzPathOf w r.hash) ["node_modules"] = .ok n) :
    spawnCalls (nmc w).trace = [installOpts w] ∧
    (installOpts w).args = w.npmArgs ∧ (installOpts w).cwd = some w.cwd ∧
    packCalls (nmc w).trace = [(w.cwd, txzPathOf w r.hash, ["node_modules"])] ∧
    Before (.spawn (installOpts w)) (.pack w.cwd (txzPathOf w r.hash) ["node_modules"])
      (nmc w).trace ∧
    Event.existsSync (txzPathOf w r.hash) ∈ (nmc w).trace ∧
    unpackCalls (nmc w).trace = [] ∧
    (nmc w).exitCode = 0 := by
  have hs := spawnCalls_probe w r.hash
  have hk := packCalls_probe w r.hash
  have hu := unpackCalls_probe w r.hash
  simp only [spawnCalls, packCalls, unpackCalls] at hs hk hu
  have hmem : Event.existsSync (txzPathOf w r.hash) ∈ probe w r.hash := by
    simp only [probe]
    split <;> simp
  rw [nmc_pack_ok w r n hg hc ha h0 hp]
  refine ⟨?_, rfl, rfl, ?_, ?_, by simp [hmem], ?_, rfl⟩
  · simp only [flagCalls]
    split <;> simp [spawnCalls, List.filterMap_append, hs, prologue, installCalls]
  · simp only [flagCalls]
    split <;> simp [packCalls, List.filterMap_append, hk, prologue, installCalls]
  · exact ⟨prologue w ++ probe w r.hash ++ [.loggerInfo
        ("Hash not found in cache, installing as npm " ++ " ".intercalate w.npmArgs ++ " ...\n")],
      flagCalls w r ++ [.loggerInfo "Installing is done, zipping...\n"],
      [.loggerInfo "Zipping is done.\n", .timeEnd timeLabel], by simp [installCalls]⟩
  · simp only [flagCalls]
    split <;> simp [unpackCalls, List.filterMap_append, hu, prologue, installCalls]

/-- Witness of C8: an empty cache, a successful install and a successful `pack`. -/
theorem fresh_install_is_stored_witness :
    "-g" ∉ wFresh.npmArgs ∧
    ¬ Archived wFresh.files (txzPathOf wFresh "ab12") ∧
    (installRes wFresh).code = 0 ∧
    (spawnCalls (nmc wFresh).trace = [installOpts wFresh] ∧
      (installOpts wFresh).args = wFresh.npmArgs ∧
      (installOpts wFresh).cwd = some wFresh.cwd ∧
      packCalls (nmc wFresh).trace = [(wFresh.cwd, txzPathOf wFresh "ab12", ["node_modules"])] ∧
      Before (.spawn (installOpts wFresh))
        (.pack wFresh.cwd (txzPathOf wFresh "ab12") ["node_modules"]) (nmc wFresh).trace ∧
      Event.existsSync (txzPathOf wFresh "ab12") ∈ (nmc wFresh).trace ∧
      unpackCalls (nmc wFresh).trace = [] ∧
      (nmc wFresh).exitCode = 0) :=
  ⟨by decide, by decide, by decide,
    fresh_install_is_stored wFresh { hash := "ab12", nameAndVersion := "my-pkg@1.0.0" } 2048
      (by decide) rfl (by decide) (by decide) rfl⟩

/-- Counterexample to C9: an empty cache, a successful install and a `pack` that
fails; the process exits with code 1, not 0. -/
theorem pack_failure_counterexample :
    "-g" ∉ wPackFails.npmArgs ∧
    wPackFails.calcHash = .ok { hash := "ab12", nameAndVersion := "my-pkg@1.0.0" } ∧
    ¬ Archived wPackFails.files (txzPathOf wPackFails "ab12") ∧
    (installRes wPackFails).code = 0 ∧
    wPackFails.pack wPackFails.cwd (txzPathOf wPackFails "ab12") ["node_modules"] =
      .error "disk full" ∧
    (nmc wPackFails).exitCode ≠ 0 :=
  ⟨by decide, rfl, by decide, by decide, rfl, by decide⟩

/-- C9, amended: in a cache-miss run that is not global in which the installer
succeeds but `pack` raises an error, the failure of the cache write fails the run:
after the one spawn of the installer and the call of `pack`, the handler of
unhandled rejections logs the error and the process exits with code 1. -/
theorem pack_failure_is_fatal (w : World) (r : HashInfo) (e : String) (hg : "-g" ∉ w.npmArgs)
    (hc : w.calcHash = .ok r) (ha : ¬ Archived w.files (txzPathOf w r.hash))
    (h0 : (installRes w).code = 0)
    (hp : w.pack w.cwd (txzPathOf w r.hash) ["node_modules"] = .error e) :
    spawnCalls (nmc w).trace = [installOpts w] ∧
    packCalls (nmc w).trace = [(w.cwd, txzPathOf w r.hash, ["node_modules"])] ∧
    (∃ l, (nmc w).trace = l ++ rejection e) ∧
    (nmc w).exitCode = 1 := by
  have hs := spawnCalls_probe w r.hash
  have hk := packCalls_probe w r.hash
  simp only [spawnCalls, packCalls] at hs hk
  rw [nmc_pack_fail w r e hg hc ha h0 hp]
  refine ⟨?_, ?_, ⟨_, rfl⟩, rfl⟩
  · simp only [flagCalls]
    split <;> simp [spawnCalls, List.filterMap_append, hs, prologue, installCalls, rejection]
  · simp only [flagCalls]
    split <;> simp [packCalls, List.filterMap_append, hk, prologue, installCalls, rejection]

/-- Witness of the amended C9. -/
theorem pack_failure_is_fatal_witness :
    "-g" ∉ wPackFails.npmArgs ∧
    ¬ Archived wPackFails.files (txzPathOf wPackFails "ab12") ∧
    (installRes wPackFails).code = 0 ∧
    (spawnCalls (nmc wPackFails).trace = [installOpts wPackFails] ∧
      packCalls (nmc wPackFails).trace =
        [(wPackFails.cwd, txzPathOf wPackFails "ab12", ["node_modules"])] ∧
      (∃ l, (nmc wPackFails).trace = l ++ rejection "disk full") ∧
      (nmc wPackFails).exitCode = 1) :=
  ⟨by decide, by decide, by decide,
    pack_failure_is_fatal wPackFails { hash := "ab12", nameAndVersion := "my-pkg@1.0.0" }
      "disk full" (by decide) rfl (by decide) (by decide) rfl⟩

/-- Every run that is not global starts with the calls of lines 76-80. -/
theorem nonglobal_trace (w : World) (hg : "-g" ∉ w.npmArgs) :
    ∃ rest, (nmc w).trace = prologue w ++ rest := by
  rcases hc : w.calcHash with e | r
  · exact ⟨_, by rw [nmc_no_manifest w e hg hc]⟩
  · by_cases ha : Archived w.files (txzPathOf w r.hash)
    · obtain ⟨rest, ht⟩ := hit_trace w r hg hc ha
      exact ⟨_, by rw [ht, restoreCalls, List.append_assoc]⟩
    · obtain ⟨rest, ht, _⟩ := miss_trace w r hg hc ha
      exact ⟨_, by rw [ht, List.append_assoc, List.append_assoc]⟩

/-- C10: in every run that is not global, the removal of `<cwd>/node_modules` is the
first call after the log line that announces it: the trace starts with that log
line and the removal, `calcHash` is called afterwards, and every call of
`calcHash`, of `unpack` and of `spawn` in the run comes after the removal (also
when `calcHash` fails, and on the hit and on the miss branch). -/
theorem removal_comes_first (w : World) (hg : "-g" ∉ w.npmArgs) :
    (∃ rest, (nmc w).trace =
        .loggerInfo "Remove node_modules..." :: .rimrafSync (pathJoin w.cwd "node_modules") ::
          rest ∧ Event.calcHash ∈ rest) ∧
    ((nmc w).trace.filter (fun e => !e.isLog)).head? =
      some (.rimrafSync (pathJoin w.cwd "node_modules")) ∧
    (∀ e ∈ (nmc w).trace,
      (e = .calcHash ∨ (∃ c a, e = .unpack c a) ∨ (∃ o, e = .spawn o)) →
      Before (.rimrafSync (pathJoin w.cwd "node_modules")) e (nmc w).trace) := by
  obtain ⟨rest, ht⟩ := nonglobal_trace w hg
  rw [ht]
  refine ⟨⟨_, rfl, by simp⟩, by simp [prologue, List.filter, Event.isLog], ?_⟩
  intro e he hk
  have he1 : e ∈ Event.loggerInfo "Done.\n" :: Event.calcHash :: rest := by
    simp only [prologue, List.cons_append, List.nil_append] at he
    rcases List.mem_cons.mp he with rfl | he2
    · simp at hk
    · rcases List.mem_cons.mp he2 with rfl | he3
      · simp at hk
      · exact he3
  obtain ⟨l₂, l₃, h23⟩ := List.append_of_mem he1
  exact ⟨[.loggerInfo "Remove node_modules..."], l₂, l₃, by simp [prologue, ← h23]⟩

/-- Witness of C10: a directory without manifest. -/
theorem removal_comes_first_witness :
    "-g" ∉ wNoManifest.npmArgs ∧
    ((∃ rest, (nmc wNoManifest).trace =
        .loggerInfo "Remove node_modules..." ::
          .rimrafSync (pathJoin wNoManifest.cwd "node_modules") :: rest ∧
        Event.calcHash ∈ rest) ∧
      ((nmc wNoManifest).trace.filter (fun e => !e.isLog)).head? =
        some (.rimrafSync (pathJoin wNoManifest.cwd "node_modules")) ∧
      (∀ e ∈ (nmc wNoManifest).trace,
        (e = .calcHash ∨ (∃ c a, e = .unpack c a) ∨ (∃ o, e = .spawn o)) →
        Before (.rimrafSync (pathJoin wNoManifest.cwd "node_modules")) e
          (nmc wNoManifest).trace)) :=
  ⟨by decide, removal_comes_first wNoManifest (by decide)⟩

end Nmc
